import Mathlib

/-!
Verification of the odds-tracker normalization pipeline.

This file gives a shallow embedding of the player-props pipeline:
the flattening transform of `scripts/player_props_scraper.py`
(`scrape_player_props`), the SQLite-backed store of
`PlayerPropsDatabase` (schema with a UNIQUE natural key and
`INSERT OR REPLACE` upserts), its read queries, and the
reconstruction queries of `dashboard.py` (`get_game_details`,
`get_player_props`).

Modelling conventions:
- Python dicts produced by the upstream JSON are modelled by
  structures whose fields are `Option`-typed where the code accesses
  them with `dict.get(key, default)`; the `getD` defaults below are
  the defaults written in the source.
- SQLite REAL columns hold decimal prices/lines; they are modelled
  as `ℚ` (the code only ever stores and compares them, never does
  arithmetic on them).
- The store is a list of rows; `INSERT OR REPLACE` on the UNIQUE
  natural key deletes any row with the same key and appends the new
  row.  The surrogate AUTOINCREMENT id is omitted: every read query
  in the source orders its result explicitly.
- SQL `ORDER BY` on TEXT columns compares byte-wise; strings are
  compared through the lexicographic order on their character lists.
- The `sqlite3.Error` catch in `save_player_props` is modelled by a
  per-record success oracle `ok`: a record on which the engine fails
  is skipped and not counted, as in the source's `except/continue`.
-/

/-- One priced side of a market, as delivered by the upstream JSON
(`outcome` dict): name, optional descriptive label, price, line. -/
structure RawOutcome where
  name : Option String
  description : Option String
  price : Option ℚ
  point : Option ℚ
deriving DecidableEq

/-- One market of a bookmaker (`market` dict). -/
structure RawMarket where
  key : Option String
  last_update : Option String
  outcomes : Option (List RawOutcome)
deriving DecidableEq

/-- One bookmaker quote of an event (`bookmaker` dict). -/
structure RawBookmaker where
  key : Option String
  title : Option String
  last_update : Option String
  markets : Option (List RawMarket)
deriving DecidableEq

/-- One scheduled game delivered by the upstream API (`event` dict). -/
structure RawEvent where
  id : Option String
  sport_key : Option String
  sport_title : Option String
  home_team : Option String
  away_team : Option String
  commence_time : Option String
  bookmakers : Option (List RawBookmaker)
deriving DecidableEq

/-- Python `a or b` on strings: the left operand unless it is falsy
(empty). -/
def strOr (a b : String) : String := if a = "" then b else a

/-- Subject-name resolution of `scrape_player_props`:
`outcome.get('description', '') or outcome.get('name', '')`. -/
def resolveSubject (descr nm : String) : String := if descr = "" then nm else descr

/-- The flat record built for one outcome (`prop_record` dict in
`scrape_player_props`). -/
structure PropRecord where
  event_id : String
  sport_key : String
  sport_title : String
  home_team : String
  away_team : String
  commence_time : String
  player_name : String
  prop_type : String
  outcome_name : String
  outcome_price : Option ℚ
  outcome_point : Option ℚ
  bookmaker_key : String
  bookmaker_title : String
  last_update : String
deriving DecidableEq

/-- Builds the flat record for one (event, bookmaker, market, outcome)
tuple, with the `dict.get` defaults of `scrape_player_props`:
`sport_key` defaults to the scraper's `sport` argument, `sport_title`
to the resolved sport key, `last_update` is the market's timestamp or
else the bookmaker's (`market_last_update or last_update`). -/
def mkPropRecord (sport : String) (e : RawEvent) (b : RawBookmaker)
    (m : RawMarket) (o : RawOutcome) : PropRecord :=
  let sk := e.sport_key.getD sport
  { event_id := e.id.getD ""
    sport_key := sk
    sport_title := e.sport_title.getD sk
    home_team := e.home_team.getD ""
    away_team := e.away_team.getD ""
    commence_time := e.commence_time.getD ""
    player_name := resolveSubject (o.description.getD "") (o.name.getD "")
    prop_type := m.key.getD ""
    outcome_name := o.name.getD ""
    outcome_price := o.price
    outcome_point := o.point
    bookmaker_key := b.key.getD ""
    bookmaker_title := b.title.getD ""
    last_update := strOr (m.last_update.getD "") (b.last_update.getD "") }

/-- Innermost loop of `scrape_player_props`: one record per outcome of
a market (`market.get('outcomes', [])`). -/
def flattenMarket (sport : String) (e : RawEvent) (b : RawBookmaker)
    (m : RawMarket) : List PropRecord :=
  (m.outcomes.getD []).map (mkPropRecord sport e b m)

/-- Middle loop: all records of one bookmaker
(`bookmaker.get('markets', [])`). -/
def flattenBookmaker (sport : String) (e : RawEvent) (b : RawBookmaker) :
    List PropRecord :=
  (b.markets.getD []).flatMap (flattenMarket sport e b)

/-- Outer loop: all records of one event (`event.get('bookmakers', [])`). -/
def flattenEvent (sport : String) (e : RawEvent) : List PropRecord :=
  (e.bookmakers.getD []).flatMap (flattenBookmaker sport e)

/-- The whole flattening pass of `scrape_player_props` over the list of
events returned by the API. -/
def flattenEvents (sport : String) (es : List RawEvent) : List PropRecord :=
  es.flatMap (flattenEvent sport)

/-- A persisted row of the `player_props` table: the flat record plus
the ingestion timestamp column `scraped_at`. -/
structure DbRow extends PropRecord where
  scraped_at : String
deriving DecidableEq

/-- The natural key declared UNIQUE by `_setup_database`:
`(event_id, player_name, prop_type, bookmaker_key, outcome_name)`. -/
def recordKey (p : PropRecord) : String × String × String × String × String :=
  (p.event_id, p.player_name, p.prop_type, p.bookmaker_key, p.outcome_name)

/-- Natural key of a stored row. -/
def natKey (r : DbRow) : String × String × String × String × String :=
  recordKey r.toPropRecord

/-- The store: the rows of the `player_props` table. -/
abbrev Store : Type := List DbRow

/-- Materialize a flat record as a row with ingestion timestamp `now`
(the `datetime.now().isoformat()` written by `save_player_props`). -/
def toDbRow (p : PropRecord) (now : String) : DbRow :=
  { toPropRecord := p, scraped_at := now }

/-- `INSERT OR REPLACE` on the UNIQUE natural key: any existing row
with the same key is deleted and the new row is inserted. -/
def upsertRow (s : Store) (p : PropRecord) (now : String) : Store :=
  (List.filter (fun q => decide (natKey q ≠ recordKey p)) s) ++ [toDbRow p now]

/-- `PlayerPropsDatabase.save_player_props`: loops over the batch,
upserting each record; a record on which the engine errors (`ok p =
false`) is logged and skipped, the loop continues, and only successes
are counted.  Returns the final store and the returned `saved` count. -/
def savePlayerProps (s : Store) (batch : List PropRecord) (now : String)
    (ok : PropRecord → Bool) : Store × ℕ :=
  match batch with
  | [] => (s, 0)
  | p :: rest =>
    if ok p then
      let r := savePlayerProps (upsertRow s p now) rest now ok
      (r.1, r.2 + 1)
    else savePlayerProps s rest now ok

/-- The no-failure oracle: the engine accepts every record. -/
def okAll : PropRecord → Bool := fun _ => true

/-- Tail of `scrape_player_props`: flatten the events, and only when
some records were produced call `save_player_props`; with no records
it returns normally with nothing saved (count 0). -/
def ingestPlayerProps (sport : String) (es : List RawEvent) (s : Store)
    (now : String) : Store × ℕ :=
  let records := flattenEvents sport es
  if records.isEmpty then (s, 0) else savePlayerProps s records now okAll

/-- Does some record of the batch carry this natural key? -/
def keyInBatch (batch : List PropRecord) (k : String × String × String × String × String) : Bool :=
  batch.any (fun p => decide (recordKey p = k))

/-- The rows a batch leaves in the table, in insertion order: one row
per natural key, the last record with that key winning. -/
def emitBatch (batch : List PropRecord) (now : String) : Store :=
  match batch with
  | [] => []
  | p :: rest =>
    if keyInBatch rest (recordKey p) then emitBatch rest now
    else toDbRow p now :: emitBatch rest now

/-- SQLite `LIKE` on character lists: `%` matches any run (the rest of
the pattern must match some suffix of the text), `_` any one character,
letters match ASCII case-insensitively. -/
def likeChars : List Char → List Char → Bool
  | [], ts => ts.isEmpty
  | p :: ps2, ts =>
    if p = '%' then
      ts.tails.any (fun ts2 => likeChars ps2 ts2)
    else
      match ts with
      | [] => false
      | t :: ts2 => (if p = '_' then true else p.toLower == t.toLower) && likeChars ps2 ts2

/-- `text LIKE pattern` for SQLite. -/
def sqlLike (text pattern : String) : Bool := likeChars pattern.data text.data

/-- The optional `sport_key = ?` condition of `get_player_props`: the
filter is only added when the argument is truthy (`if sport_key:`). -/
def sportCond (spk : Option String) (r : DbRow) : Bool :=
  match spk with
  | none => true
  | some sk => if sk = "" then true else decide (r.sport_key = sk)

/-- The optional `player_name LIKE ?` condition of `get_player_props`,
with the pattern `f"%{player_name}%"`; only added when truthy. -/
def nameCond (pn : Option String) (r : DbRow) : Bool :=
  match pn with
  | none => true
  | some nm => if nm = "" then true else sqlLike r.player_name ("%" ++ nm ++ "%")

/-- `ORDER BY scraped_at DESC` as a relation on rows. -/
def scrapedDescLe (a b : DbRow) : Prop :=
  b.scraped_at.data ≤ a.scraped_at.data

instance : DecidableRel scrapedDescLe :=
  fun a b => inferInstanceAs (Decidable (b.scraped_at.data ≤ a.scraped_at.data))

instance : IsTotal DbRow scrapedDescLe :=
  ⟨fun a b => le_total b.scraped_at.data a.scraped_at.data⟩

instance : IsTrans DbRow scrapedDescLe :=
  ⟨fun _ _ _ hab hbc => le_trans hbc hab⟩

/-- `PlayerPropsDatabase.get_player_props`: `SELECT * FROM player_props
WHERE 1=1 [AND sport_key = ?] [AND player_name LIKE ?] ORDER BY
scraped_at DESC LIMIT ?`. -/
def getPlayerPropsDb (s : Store) (spk pn : Option String) (lim : ℕ) : List DbRow :=
  (List.insertionSort scrapedDescLe
    (List.filter (fun r => sportCond spk r && nameCond pn r) s)).take lim

/-- `PlayerPropsDatabase.get_props_by_player`: the same query with
limit 1000. -/
def getPropsByPlayer (s : Store) (pn : String) (spk : Option String) : List DbRow :=
  getPlayerPropsDb s spk (some pn) 1000

/-- `PlayerPropsDatabase.get_recent_props`: rows with `scraped_at >=`
the cutoff (a computed `datetime('now', '-N hours')` string, passed
here as a parameter), `ORDER BY scraped_at DESC`. -/
def getRecentProps (s : Store) (cutoff : String) : List DbRow :=
  List.insertionSort scrapedDescLe
    (List.filter (fun r => decide (cutoff.data ≤ r.scraped_at.data)) s)

/-- Sort key of the game-detail query of `dashboard.get_game_details`:
`ORDER BY player_name, prop_type, bookmaker_title, outcome_name`. -/
def detailKey (r : DbRow) :
    Lex (List Char × Lex (List Char × Lex (List Char × List Char))) :=
  toLex (r.player_name.data,
    toLex (r.prop_type.data, toLex (r.bookmaker_title.data, r.outcome_name.data)))

/-- The game-detail ordering relation. -/
def detailLe (a b : DbRow) : Prop := detailKey a ≤ detailKey b

instance : DecidableRel detailLe :=
  fun a b => inferInstanceAs (Decidable (detailKey a ≤ detailKey b))

instance : IsTotal DbRow detailLe := ⟨fun a b => le_total (detailKey a) (detailKey b)⟩

instance : IsTrans DbRow detailLe := ⟨fun _ _ _ hab hbc => le_trans hab hbc⟩

/-- Props query of `dashboard.get_game_details`: all rows of one event,
`ORDER BY player_name, prop_type, bookmaker_title, outcome_name`. -/
def gameDetailProps (s : Store) (eid : String) : List DbRow :=
  List.insertionSort detailLe (List.filter (fun r => decide (r.event_id = eid)) s)

/-- Sort key of `dashboard.get_player_props`: `ORDER BY prop_type,
bookmaker_title, outcome_name`. -/
def playerPropsKey (r : DbRow) : Lex (List Char × Lex (List Char × List Char)) :=
  toLex (r.prop_type.data, toLex (r.bookmaker_title.data, r.outcome_name.data))

/-- The per-player endpoint ordering relation. -/
def playerPropsLe (a b : DbRow) : Prop := playerPropsKey a ≤ playerPropsKey b

instance : DecidableRel playerPropsLe :=
  fun a b => inferInstanceAs (Decidable (playerPropsKey a ≤ playerPropsKey b))

instance : IsTotal DbRow playerPropsLe :=
  ⟨fun a b => le_total (playerPropsKey a) (playerPropsKey b)⟩

instance : IsTrans DbRow playerPropsLe := ⟨fun _ _ _ hab hbc => le_trans hab hbc⟩

/-- One bookmaker's quote for one outcome label inside a line bucket
(the `{'price': ..., 'last_update': ...}` dict of the dashboard). -/
structure OddsCell where
  price : Option ℚ
  last_update : String
deriving DecidableEq

/-- One line bucket: line value plus the per-bookmaker outcome maps
(Python dicts in insertion order, modelled as association lists). -/
structure LineEntry where
  value : ℚ
  bookmakers : List (String × List (String × OddsCell))
deriving DecidableEq

/-- One prop-type group of the reconstructed sheet. -/
structure PropTypeEntry where
  prop_type : String
  lines : List LineEntry
deriving DecidableEq

/-- `bookmakers[bk][outc] = cell`, creating the bookmaker's dict when
absent; insertion order preserved, an existing outcome key is
overwritten in place. -/
def setCell (m : List (String × OddsCell)) (outc : String) (cell : OddsCell) :
    List (String × OddsCell) :=
  match m with
  | [] => [(outc, cell)]
  | (k, v) :: rest =>
    if k = outc then (k, cell) :: rest else (k, v) :: setCell rest outc cell

/-- Update one line bucket's bookmakers dict as the dashboard does. -/
def setBookmaker (bms : List (String × List (String × OddsCell)))
    (bk outc : String) (cell : OddsCell) :
    List (String × List (String × OddsCell)) :=
  match bms with
  | [] => [(bk, setCell [] outc cell)]
  | (k, m) :: rest =>
    if k = bk then (k, setCell m outc cell) :: rest
    else (k, m) :: setBookmaker rest bk outc cell

/-- Find-or-append the bucket with this exact line value (the linear
`line['value'] == line_value` search of the dashboard) and record the
quote in it. -/
def updateLines (lines : List LineEntry) (q : ℚ) (bk outc : String)
    (cell : OddsCell) : List LineEntry :=
  match lines with
  | [] => [⟨q, setBookmaker [] bk outc cell⟩]
  | e :: rest =>
    if e.value = q then ⟨e.value, setBookmaker e.bookmakers bk outc cell⟩ :: rest
    else e :: updateLines rest q bk outc cell

/-- Find-or-create the prop-type group (`props_by_type`, a dict in
insertion order) and transform its line list. -/
def updatePropType (sheet : List PropTypeEntry) (pt : String)
    (f : List LineEntry → List LineEntry) : List PropTypeEntry :=
  match sheet with
  | [] => [⟨pt, f []⟩]
  | e :: rest =>
    if e.prop_type = pt then ⟨e.prop_type, f e.lines⟩ :: rest
    else e :: updatePropType rest pt f

/-- One iteration of the dashboard's grouping loop: the prop-type group
is created first; then only a truthy line value (`if line_value:` —
neither NULL nor 0) opens or extends a line bucket. -/
def updateSheet (sheet : List PropTypeEntry) (r : DbRow) : List PropTypeEntry :=
  let cell : OddsCell := ⟨r.outcome_price, r.last_update⟩
  match r.outcome_point with
  | none => updatePropType sheet r.prop_type id
  | some q =>
    if q = 0 then updatePropType sheet r.prop_type id
    else updatePropType sheet r.prop_type
      (fun ls => updateLines ls q r.bookmaker_title r.outcome_name cell)

/-- The grouping loop of `dashboard.get_player_props` over the queried
rows (`list(props_by_type.values())`). -/
def buildPropsByType (rows : List DbRow) : List PropTypeEntry :=
  rows.foldl updateSheet []

/-- Result of a dashboard endpoint at the caller boundary: an explicit
not-found JSON (HTTP 404) or the payload. -/
inductive ApiResult (α : Type) where
  | notFound
  | ok (val : α)
deriving DecidableEq

/-- `dashboard.get_player_props`: query one player's rows of one event
(`ORDER BY prop_type, bookmaker_title, outcome_name`); an empty result
returns the explicit not-found JSON, otherwise the grouped sheet. -/
def getPlayerPropsApi (s : Store) (eid pname : String) :
    ApiResult (List PropTypeEntry) :=
  let rows := List.insertionSort playerPropsLe
    (List.filter (fun r => decide (r.event_id = eid) && decide (r.player_name = pname)) s)
  if rows.isEmpty then ApiResult.notFound else ApiResult.ok (buildPropsByType rows)

/-- Uniqueness invariant of the `player_props` table: no two rows share
the UNIQUE natural key. -/
def UniqueKeys (s : Store) : Prop :=
  s.Pairwise (fun a b => natKey a ≠ natKey b)

instance : DecidablePred UniqueKeys := fun s =>
  decidable_of_iff (s.Pairwise fun a b => natKey a ≠ natKey b) Iff.rfl

/-- Concrete scenario of the spec: the "Over 24.5 @ 1.9" outcome of
"J. Smith" offered by bookmaker "DK" on market "player_points". -/
def scOver : RawOutcome :=
  ⟨some "Over", some "J. Smith", some (mkRat 19 10), some (mkRat 49 2)⟩

/-- The matching "Under 24.5 @ 1.95" outcome. -/
def scUnder : RawOutcome :=
  ⟨some "Under", some "J. Smith", some (mkRat 39 20), some (mkRat 49 2)⟩

/-- The scenario "player_points" market. -/
def scMarket : RawMarket := ⟨some "player_points", some "LU", some [scOver, scUnder]⟩

/-- The scenario bookmaker "DK". -/
def scBook : RawBookmaker := ⟨some "dk", some "DK", some "BLU", some [scMarket]⟩

/-- The scenario event. -/
def scEvent : RawEvent :=
  ⟨some "ev1", some "basketball_nba", some "NBA", some "Lakers", some "Celtics",
    some "CT", some [scBook]⟩

/-- The flat batch produced for the scenario event. -/
def scBatch : List PropRecord := flattenEvent "basketball_nba" scEvent

/-- The store after ingesting the scenario event once. -/
def scStore : Store := (savePlayerProps [] scBatch "T1" okAll).1

/-- The flat record of the scenario "Over" outcome. -/
def scOverRec : PropRecord := mkPropRecord "basketball_nba" scEvent scBook scMarket scOver

/-- The scenario event re-scraped with the "Over" price moved to 2.0. -/
def scEventUpd : RawEvent :=
  ⟨some "ev1", some "basketball_nba", some "NBA", some "Lakers", some "Celtics",
    some "CT", some [⟨some "dk", some "DK", some "BLU", some [⟨some "player_points",
      some "LU2", some [⟨some "Over", some "J. Smith", some (mkRat 2 1), some (mkRat 49 2)⟩,
        scUnder]⟩]⟩]⟩

/-- The updated flat batch. -/
def scBatchUpd : List PropRecord := flattenEvent "basketball_nba" scEventUpd

/-- The store after re-ingesting the updated batch. -/
def scStoreUpd : Store := (savePlayerProps scStore scBatchUpd "T2" okAll).1

/-- An outcome with the price field absent. -/
def npOutcome : RawOutcome := ⟨some "Over", some "K. Jones", none, some (mkRat 21 2)⟩

/-- Market wrapping the priceless outcome. -/
def npMarket : RawMarket := ⟨some "player_assists", none, some [npOutcome]⟩

/-- Bookmaker wrapping the priceless outcome. -/
def npBook : RawBookmaker := ⟨some "fd", some "FD", none, some [npMarket]⟩

/-- Event wrapping the priceless outcome, with most fields absent. -/
def npEvent : RawEvent := ⟨some "ev2", none, none, none, none, none, some [npBook]⟩

/-- An outcome whose descriptive label is present but empty. -/
def edOutcome : RawOutcome := ⟨some "Over", some "", some (mkRat 19 10), none⟩

/-- Event wrapping the empty-label outcome. -/
def edEvent : RawEvent :=
  ⟨some "ev5", some "nba", none, none, none, none,
    some [⟨some "dk", some "DK", none, some [⟨some "h2h", none, some [edOutcome]⟩]⟩]⟩

/-- An event carrying an empty bookmaker list. -/
def zbEvent : RawEvent := ⟨some "ev3", some "nba", none, none, none, none, some []⟩

/-- A bookmaker whose `markets` list is missing. -/
def nmBook : RawBookmaker := ⟨some "x", some "X", none, none⟩

/-- A market whose `outcomes` list is missing. -/
def noMarket : RawMarket := ⟨some "k", none, none⟩

/-- A stored row with a NULL line value. -/
def rowNullLine : DbRow :=
  { event_id := "ev4", sport_key := "nba", sport_title := "NBA", home_team := "",
    away_team := "", commence_time := "", player_name := "P", prop_type := "h2h",
    outcome_name := "A", outcome_price := some (mkRat 3 2), outcome_point := none,
    bookmaker_key := "dk", bookmaker_title := "DK", last_update := "L",
    scraped_at := "T1" }

/-- A stored row with line value 0. -/
def rowZeroLine : DbRow :=
  { event_id := "ev4", sport_key := "nba", sport_title := "NBA", home_team := "",
    away_team := "", commence_time := "", player_name := "P", prop_type := "h2h",
    outcome_name := "B", outcome_price := some (mkRat 5 2), outcome_point := some 0,
    bookmaker_key := "dk", bookmaker_title := "DK", last_update := "L",
    scraped_at := "T1" }

/-- Store holding the NULL-line and the zero-line rows. -/
def nzStore : Store := [rowNullLine, rowZeroLine]

/-- Row for "Bob", scraped later than the "Aaron" row. -/
def c6RowBob : DbRow :=
  { event_id := "e1", sport_key := "nba", sport_title := "NBA", home_team := "H",
    away_team := "A", commence_time := "CT", player_name := "Bob",
    prop_type := "player_points", outcome_name := "Over",
    outcome_price := some (mkRat 19 10), outcome_point := some (mkRat 49 2),
    bookmaker_key := "dk", bookmaker_title := "DK", last_update := "L",
    scraped_at := "2024-01-02" }

/-- Row for "Aaron", scraped earlier than the "Bob" row. -/
def c6RowAaron : DbRow :=
  { event_id := "e1", sport_key := "nba", sport_title := "NBA", home_team := "H",
    away_team := "A", commence_time := "CT", player_name := "Aaron",
    prop_type := "player_points", outcome_name := "Over",
    outcome_price := some (mkRat 19 10), outcome_point := some (mkRat 49 2),
    bookmaker_key := "dk", bookmaker_title := "DK", last_update := "L",
    scraped_at := "2024-01-01" }

/-- Store whose subject order disagrees with its scrape-time order. -/
def c6Store : Store := [c6RowBob, c6RowAaron]

/-- An old row whose player name contains "Smith". -/
def c10Old : DbRow :=
  { event_id := "e2", sport_key := "nba", sport_title := "NBA", home_team := "H",
    away_team := "A", commence_time := "CT", player_name := "A. Smith",
    prop_type := "player_points", outcome_name := "Over",
    outcome_price := some (mkRat 19 10), outcome_point := some (mkRat 49 2),
    bookmaker_key := "dk", bookmaker_title := "DK", last_update := "L",
    scraped_at := "2024-01-01" }

/-- A newer row whose player name also contains "Smith". -/
def c10New : DbRow :=
  { event_id := "e2", sport_key := "nba", sport_title := "NBA", home_team := "H",
    away_team := "A", commence_time := "CT", player_name := "B. Smith",
    prop_type := "player_points", outcome_name := "Over",
    outcome_price := some (mkRat 21 10), outcome_point := some (mkRat 51 2),
    bookmaker_key := "dk", bookmaker_title := "DK", last_update := "L",
    scraped_at := "2024-01-02" }

/-- Store with two rows matching "Smith". -/
def c10Store : Store := [c10Old, c10New]

/-! ## Theorems -/

/-- A market flattens to one record per outcome. -/
theorem length_flattenMarket (sport : String) (e : RawEvent) (b : RawBookmaker)
    (m : RawMarket) : (flattenMarket sport e b m).length = (m.outcomes.getD []).length := by
  simp [flattenMarket]

/-- A bookmaker flattens to the sum of its markets' outcome counts. -/
theorem length_flattenBookmaker (sport : String) (e : RawEvent) (b : RawBookmaker) :
    (flattenBookmaker sport e b).length =
      ((b.markets.getD []).map (fun m => (m.outcomes.getD []).length)).sum := by
  rw [flattenBookmaker, List.length_flatMap]
  exact congrArg List.sum (List.map_congr_left fun m _ => length_flattenMarket sport e b m)

/-- C1: for every RawEvent, the flattening transform emits exactly one
FlatRecord per outcome reachable through the (bookmaker, market,
outcome) nesting — the record count equals the total outcome count
across all bookmaker/market pairs — and every outcome, in particular
one whose price field is absent, yields its record with the price
carried over verbatim (a null price stays null, the record is never
skipped). -/
theorem flatten_one_record_per_outcome (sport : String) (e : RawEvent) :
    (flattenEvent sport e).length =
      ((e.bookmakers.getD []).map (fun b =>
        ((b.markets.getD []).map (fun m => (m.outcomes.getD []).length)).sum)).sum
    ∧ ∀ b ∈ e.bookmakers.getD [], ∀ m ∈ b.markets.getD [], ∀ o ∈ m.outcomes.getD [],
        mkPropRecord sport e b m o ∈ flattenEvent sport e ∧
        (mkPropRecord sport e b m o).outcome_price = o.price := by
  constructor
  · rw [flattenEvent, List.length_flatMap]
    exact congrArg List.sum
      (List.map_congr_left fun b _ => length_flattenBookmaker sport e b)
  · intro b hb m hm o ho
    refine ⟨?_, rfl⟩
    unfold flattenEvent flattenBookmaker flattenMarket
    exact List.mem_flatMap.mpr ⟨b, hb,
      List.mem_flatMap.mpr ⟨m, hm, List.mem_map.mpr ⟨o, ho, rfl⟩⟩⟩

/-- Witness for C1 at a concrete event whose single outcome carries no
price: the record is emitted and its price is null. -/
theorem flatten_one_record_per_outcome_witness :
    mkPropRecord "s" npEvent npBook npMarket npOutcome ∈ flattenEvent "s" npEvent ∧
    (mkPropRecord "s" npEvent npBook npMarket npOutcome).outcome_price = none := by
  have h := (flatten_one_record_per_outcome "s" npEvent).2 npBook (by decide) npMarket
    (by decide) npOutcome (by decide)
  exact ⟨h.1, h.2⟩

/-- C2 is refuted as stated: an outcome whose descriptive label is
present but empty (`description = some ""`) is resolved to its outcome
name, not to the label — Python's `description or name` treats an empty
label as absent. -/
theorem subject_label_counterexample :
    edOutcome.description = some "" ∧
    (flattenEvent "s" edEvent).map (fun r => r.player_name) = ["Over"] :=
  ⟨rfl, rfl⟩

/-- C2 (amended): the resolved subject is the descriptive label
whenever the label is present and non-empty, and the outcome name
otherwise; the outcome name is always kept as the comparison side; and
reconstruction groups the scenario record under the label "J. Smith"
(the query under the outcome name "Over" finds nothing), never the
reverse. -/
theorem subject_resolution_amended (sport : String) (e : RawEvent) (b : RawBookmaker)
    (m : RawMarket) (o : RawOutcome) (L : String) :
    (o.description = some L → L ≠ "" → (mkPropRecord sport e b m o).player_name = L)
    ∧ ((o.description = none ∨ o.description = some "") →
        (mkPropRecord sport e b m o).player_name = o.name.getD "")
    ∧ (mkPropRecord sport e b m o).outcome_name = o.name.getD ""
    ∧ getPlayerPropsApi scStore "ev1" "Over" = ApiResult.notFound
    ∧ getPlayerPropsApi scStore "ev1" "J. Smith" ≠ ApiResult.notFound := by
  refine ⟨?_, ?_, rfl, by decide, by decide⟩
  · intro hd hne
    simp [mkPropRecord, resolveSubject, hd, hne]
  · rintro (hd | hd) <;> simp [mkPropRecord, resolveSubject, hd]

/-- Witness for C2 (amended) at the scenario "Over" outcome: its
non-empty label "J. Smith" becomes the subject. -/
theorem subject_resolution_amended_witness :
    (mkPropRecord "basketball_nba" scEvent scBook scMarket scOver).player_name =
      "J. Smith" :=
  (subject_resolution_amended "basketball_nba" scEvent scBook scMarket scOver
    "J. Smith").1 rfl (by decide)

/-- C4: reconstruction groups the queried rows by prop type, then by
exact line value, then by bookmaker, mapping each outcome label to its
quote; on the spec's scenario it yields exactly one entry J. Smith →
player_points → 24.5 → DK → Over 1.9 / Under 1.95, and a NULL-line row
and a zero-line row open no line bucket at all — in particular they are
never merged into a common bucket. -/
theorem reconstruction_scenario :
    getPlayerPropsApi scStore "ev1" "J. Smith" =
      ApiResult.ok [⟨"player_points",
        [⟨mkRat 49 2, [("DK", [("Over", ⟨some (mkRat 19 10), "LU"⟩),
                               ("Under", ⟨some (mkRat 39 20), "LU"⟩)])]⟩]⟩]
    ∧ getPlayerPropsApi nzStore "ev4" "P" = ApiResult.ok [⟨"h2h", []⟩] :=
  ⟨by decide, by decide⟩

/-- C7: a malformed nested structure degrades to zero records for that
branch without affecting siblings — a missing outcomes list yields an
empty market, a missing markets list an empty bookmaker, an empty or
missing bookmakers list an empty event; an event flattening to nothing
drops out of a batch without disturbing its siblings; and ingesting
only such an event returns normally with the store untouched and a
saved count of 0. -/
theorem malformed_branch_zero_records (sport : String) :
    (∀ e b m, m.outcomes.getD [] = [] → flattenMarket sport e b m = [])
    ∧ (∀ e b, b.markets.getD [] = [] → flattenBookmaker sport e b = [])
    ∧ (∀ e, e.bookmakers.getD [] = [] → flattenEvent sport e = [])
    ∧ (∀ es1 e es2, flattenEvent sport e = [] →
        flattenEvents sport (es1 ++ e :: es2) = flattenEvents sport (es1 ++ es2))
    ∧ (∀ (e : RawEvent) (s : Store) (now : String), e.bookmakers.getD [] = [] →
        ingestPlayerProps sport [e] s now = (s, 0)) := by
  refine ⟨?_, ?_, ?_, ?_, ?_⟩
  · intro e b m h; simp [flattenMarket, h]
  · intro e b h; simp [flattenBookmaker, h]
  · intro e h; simp [flattenEvent, h]
  · intro es1 e es2 h
    simp [flattenEvents, List.flatMap_append, h]
  · intro e s now h
    simp [ingestPlayerProps, flattenEvents, flattenEvent, h]

/-- Witness for C7 at concrete malformed inputs: an event with zero
bookmakers, a bookmaker without a markets list, a market without an
outcomes list. -/
theorem malformed_branch_zero_records_witness :
    flattenEvent "s" zbEvent = []
    ∧ ingestPlayerProps "s" [zbEvent] nzStore "T9" = (nzStore, 0)
    ∧ flattenBookmaker "s" zbEvent nmBook = []
    ∧ flattenMarket "s" zbEvent nmBook noMarket = [] := by
  have h := malformed_branch_zero_records "s"
  exact ⟨h.2.2.1 zbEvent rfl, h.2.2.2.2 zbEvent nzStore "T9" rfl,
    h.2.1 zbEvent nmBook rfl, h.1 zbEvent nmBook noMarket rfl⟩


/-- The natural key of a materialized row is the record's key. -/
theorem natKey_toDbRow (p : PropRecord) (now : String) :
    natKey (toDbRow p now) = recordKey p := rfl

/-- Unfolding: an empty batch saves nothing. -/
theorem savePlayerProps_nil (s : Store) (now : String) (ok : PropRecord → Bool) :
    savePlayerProps s [] now ok = (s, 0) := rfl

/-- Unfolding: one step of the save loop. -/
theorem savePlayerProps_cons (s : Store) (p : PropRecord) (rest : List PropRecord)
    (now : String) (ok : PropRecord → Bool) :
    savePlayerProps s (p :: rest) now ok =
      if ok p then
        ((savePlayerProps (upsertRow s p now) rest now ok).1,
         (savePlayerProps (upsertRow s p now) rest now ok).2 + 1)
      else savePlayerProps s rest now ok := rfl

/-- Unfolding: an empty batch leaves no rows. -/
theorem emitBatch_nil (now : String) : emitBatch [] now = [] := rfl

/-- Unfolding: one step of the rows a batch leaves behind. -/
theorem emitBatch_cons (p : PropRecord) (rest : List PropRecord) (now : String) :
    emitBatch (p :: rest) now =
      if keyInBatch rest (recordKey p) then emitBatch rest now
      else toDbRow p now :: emitBatch rest now := rfl

/-- `save_player_props` under the no-failure oracle leaves exactly the
old rows whose key the batch does not carry, followed by one row per
distinct key of the batch (the last record with a key winning). -/
theorem save_store_eq (batch : List PropRecord) (s : Store) (now : String) :
    (savePlayerProps s batch now okAll).1 =
      List.filter (fun q => !keyInBatch batch (natKey q)) s ++ emitBatch batch now := by
  induction batch generalizing s with
  | nil =>
    show s = List.filter (fun q => !keyInBatch [] (natKey q)) s ++ emitBatch [] now
    rw [emitBatch_nil, List.append_nil]
    have hall : List.filter (fun q => !keyInBatch [] (natKey q)) s = s := by
      simp [keyInBatch]
    rw [hall]
  | cons p rest ih =>
    show (savePlayerProps (upsertRow s p now) rest now okAll).1 = _
    rw [ih, upsertRow, List.filter_append, List.filter_filter]
    have hpred : List.filter
        (fun a => !keyInBatch rest (natKey a) && decide (natKey a ≠ recordKey p)) s =
        List.filter (fun a => !keyInBatch (p :: rest) (natKey a)) s := by
      refine List.filter_congr fun a _ => ?_
      by_cases hk : natKey a = recordKey p
      · simp [keyInBatch, hk]
      · have h2 : ¬ recordKey p = natKey a := fun hh => hk hh.symm
        simp [keyInBatch, hk, h2]
    rw [hpred, emitBatch_cons]
    by_cases h : keyInBatch rest (recordKey p) = true
    · have hrow : List.filter (fun q => !keyInBatch rest (natKey q)) [toDbRow p now] = [] := by
        simp [List.filter_singleton, natKey_toDbRow, h]
      rw [hrow, if_pos h, List.append_assoc, List.nil_append]
    · have hrow : List.filter (fun q => !keyInBatch rest (natKey q)) [toDbRow p now] =
          [toDbRow p now] := by
        simp [List.filter_singleton, natKey_toDbRow, h]
      rw [hrow, if_neg h, List.append_assoc, List.singleton_append]

/-- Every row a batch leaves behind carries a key of the batch. -/
theorem emitBatch_keys (batch : List PropRecord) (now : String) :
    ∀ q ∈ emitBatch batch now, keyInBatch batch (natKey q) = true := by
  induction batch with
  | nil =>
    intro q hq
    rw [emitBatch_nil] at hq
    exact absurd hq (List.not_mem_nil q)
  | cons p rest ih =>
    intro q hq
    rw [emitBatch_cons] at hq
    have hgoal : keyInBatch (p :: rest) (natKey q) =
        (decide (recordKey p = natKey q) || keyInBatch rest (natKey q)) := by
      simp [keyInBatch, List.any_cons]
    rw [hgoal]
    by_cases h : keyInBatch rest (recordKey p) = true
    · rw [if_pos h] at hq
      rw [ih q hq, Bool.or_true]
    · rw [if_neg h] at hq
      rcases List.mem_cons.mp hq with h1 | h2
      · subst h1
        simp [natKey_toDbRow]
      · rw [ih q h2, Bool.or_true]

/-- The rows a batch leaves behind have pairwise distinct keys. -/
theorem emitBatch_pairwise (batch : List PropRecord) (now : String) :
    (emitBatch batch now).Pairwise (fun a b => natKey a ≠ natKey b) := by
  induction batch with
  | nil => rw [emitBatch_nil]; exact List.Pairwise.nil
  | cons p rest ih =>
    rw [emitBatch_cons]
    by_cases h : keyInBatch rest (recordKey p) = true
    · rw [if_pos h]; exact ih
    · rw [if_neg h]
      refine List.Pairwise.cons ?_ ih
      intro q hq hcontra
      rw [natKey_toDbRow] at hcontra
      have hk := emitBatch_keys rest now q hq
      rw [← hcontra] at hk
      exact h hk

/-- A single save preserves the uniqueness invariant. -/
theorem save_preserves_unique (batch : List PropRecord) (s : Store) (now : String)
    (h : UniqueKeys s) : UniqueKeys (savePlayerProps s batch now okAll).1 := by
  rw [UniqueKeys, save_store_eq]
  refine List.pairwise_append.mpr ⟨?_, emitBatch_pairwise batch now, ?_⟩
  · exact List.Pairwise.sublist (List.filter_sublist s) h
  · intro a ha b hb hcontra
    have ha2 := (List.mem_filter.mp ha).2
    rw [Bool.not_eq_true'] at ha2
    rw [hcontra] at ha2
    rw [emitBatch_keys batch now b hb] at ha2
    cases ha2

/-- With the uniqueness invariant, removing the one row holding a
present key shortens the store by exactly one. -/
theorem length_filter_ne_key (s : Store)
    (k : String × String × String × String × String)
    (h : UniqueKeys s) (hex : ∃ q ∈ s, natKey q = k) :
    (List.filter (fun q => decide (natKey q ≠ k)) s).length + 1 = s.length := by
  induction s with
  | nil => simp at hex
  | cons a rest ih =>
    have hpair := List.pairwise_cons.mp h
    rw [List.filter_cons]
    by_cases hk : natKey a = k
    · have hcond : decide (natKey a ≠ k) = false := by simp [hk]
      rw [hcond]
      have hall : List.filter (fun q => decide (natKey q ≠ k)) rest = rest := by
        rw [List.filter_eq_self]
        intro q hq
        have hne := hpair.1 q hq
        refine decide_eq_true ?_
        intro hqk
        exact hne (by rw [hk, hqk])
      rw [if_neg (by simp [hcond]), hall, List.length_cons]
    · have hcond : decide (natKey a ≠ k) = true := decide_eq_true hk
      rw [hcond]
      have hex2 : ∃ q ∈ rest, natKey q = k := by
        rcases hex with ⟨q, hq, hkey⟩
        rcases List.mem_cons.mp hq with h1 | h2
        · exact absurd (h1 ▸ hkey) hk
        · exact ⟨q, h2, hkey⟩
      have := ih hpair.2 hex2
      simp only [if_true, List.length_cons]
      omega

/-- C3: after any finite sequence of upsert batches the store never
holds two rows sharing the natural key (event id, subject/player name,
prop type, bookmaker id, outcome label); and upserting a record whose
key is already present replaces the existing row instead of adding one
— the row count does not change. -/
theorem store_unique_after_upserts (batches : List (List PropRecord × String))
    (s : Store) (h : UniqueKeys s) :
    UniqueKeys (batches.foldl (fun st pr => (savePlayerProps st pr.1 pr.2 okAll).1) s)
    ∧ ∀ (r : PropRecord) (now : String), (∃ q ∈ s, natKey q = recordKey r) →
        ((savePlayerProps s [r] now okAll).1).length = s.length := by
  constructor
  · induction batches generalizing s with
    | nil => exact h
    | cons b bs ih =>
      exact ih ((savePlayerProps s b.1 b.2 okAll).1) (save_preserves_unique b.1 s b.2 h)
  · intro r now hex
    show (upsertRow s r now).length = s.length
    rw [upsertRow, List.length_append, List.length_singleton]
    exact length_filter_ne_key s (recordKey r) h hex

/-- Witness for C3: the invariant holds after re-ingesting the updated
scenario batch on top of the scenario store, and upserting the
already-present "Over" record leaves the row count unchanged. -/
theorem store_unique_after_upserts_witness :
    UniqueKeys ([(scBatchUpd, "T2")].foldl
      (fun st pr => (savePlayerProps st pr.1 pr.2 okAll).1) scStore)
    ∧ ((savePlayerProps scStore [scOverRec] "T2" okAll).1).length = scStore.length := by
  have h := store_unique_after_upserts [(scBatchUpd, "T2")] scStore (by decide)
  exact ⟨h.1, h.2 scOverRec "T2" (by decide)⟩

/-- Under the no-failure oracle every record of the batch is counted. -/
theorem save_count_okAll (batch : List PropRecord) (s : Store) (now : String) :
    (savePlayerProps s batch now okAll).2 = batch.length := by
  induction batch generalizing s with
  | nil => rfl
  | cons p rest ih =>
    show (savePlayerProps (upsertRow s p now) rest now okAll).2 + 1 = rest.length + 1
    rw [ih]

/-- C5: upsert is idempotent — saving the same batch a second time
changes neither the store rows nor the returned count; and concretely,
re-ingesting the scenario event with the "Over" price moved to 2.0
leaves exactly 2 rows, with the "Over" row's price now 2.0. -/
theorem upsert_idempotent (s : Store) (batch : List PropRecord) (now : String) :
    savePlayerProps ((savePlayerProps s batch now okAll).1) batch now okAll =
      savePlayerProps s batch now okAll
    ∧ scStoreUpd.length = 2
    ∧ (scStoreUpd.filter (fun r => decide (r.outcome_name = "Over"))).map
        (fun r => r.outcome_price) = [some (mkRat 2 1)] := by
  refine ⟨?_, by decide, by decide⟩
  refine Prod.ext ?_ ?_
  · rw [save_store_eq, save_store_eq batch s now, List.filter_append, List.filter_filter]
    have h1 : List.filter
        (fun a => !keyInBatch batch (natKey a) && !keyInBatch batch (natKey a)) s =
        List.filter (fun a => !keyInBatch batch (natKey a)) s :=
      List.filter_congr fun a _ => Bool.and_self _
    have h2 : List.filter (fun q => !keyInBatch batch (natKey q)) (emitBatch batch now) =
        [] := by
      refine List.filter_eq_nil_iff.mpr fun q hq => ?_
      simp [emitBatch_keys batch now q hq]
    rw [h1, h2, List.append_nil]
  · rw [save_count_okAll, save_count_okAll]

/-- C8: the store writer never aborts the batch — a record the engine
rejects is logged and skipped and the loop continues with the remaining
records — and the returned count is exactly the number of records
successfully persisted: the run equals upserting just the accepted
records (a record whose natural key is already present is an accepted
replace, not an error, by `INSERT OR REPLACE`). -/
theorem save_counts_only_successes (s : Store) (batch : List PropRecord) (now : String)
    (ok : PropRecord → Bool) :
    savePlayerProps s batch now ok =
      ((savePlayerProps s (batch.filter ok) now okAll).1, (batch.filter ok).length) := by
  induction batch generalizing s with
  | nil => rfl
  | cons p rest ih =>
    rw [savePlayerProps_cons, List.filter_cons]
    by_cases h : ok p = true
    · rw [if_pos h, if_pos h, ih (upsertRow s p now), savePlayerProps_cons]
      show _ = ((savePlayerProps (upsertRow s p now) (rest.filter ok) now okAll).1, _)
      rw [List.length_cons]
    · rw [if_neg h, if_neg h]
      exact ih s

/-- A `%` in the pattern may skip any prefix of the text: if the rest
of the pattern matches some suffix, the `%`-headed pattern matches the
whole text. -/
theorem likeChars_pct (ps txt ts : List Char) (hsuf : ts <:+ txt)
    (h : likeChars ps ts = true) : likeChars ('%' :: ps) txt = true := by
  have hunf : likeChars ('%' :: ps) txt =
      txt.tails.any (fun ts2 => likeChars ps ts2) := by
    simp [likeChars]
  rw [hunf]
  exact List.any_eq_true.mpr ⟨ts, (List.mem_tails ts txt).mpr hsuf, h⟩

/-- A literal block followed by `%` matches itself followed by any
suffix (characters compare case-insensitively with themselves). -/
theorem likeChars_self_pct (xs suf : List Char) :
    likeChars (xs ++ ['%']) (xs ++ suf) = true := by
  induction xs with
  | nil =>
    exact likeChars_pct [] suf [] List.nil_suffix rfl
  | cons c xs ih =>
    rw [List.cons_append, List.cons_append]
    by_cases hc : c = '%'
    · subst hc
      exact likeChars_pct (xs ++ ['%']) ('%' :: (xs ++ suf)) (xs ++ suf)
        (List.suffix_cons '%' (xs ++ suf)) ih
    · have hunf : likeChars (c :: (xs ++ ['%'])) (c :: (xs ++ suf)) =
          ((if c = '_' then true else c.toLower == c.toLower) &&
            likeChars (xs ++ ['%']) (xs ++ suf)) := by
        simp [likeChars, hc]
      rw [hunf, ih, Bool.and_true]
      by_cases hu : c = '_'
      · rw [if_pos hu]
      · rw [if_neg hu]
        exact beq_self_eq_true c.toLower

/-- C6 is refuted as stated: the by-subject query (`get_player_props`,
`ORDER BY scraped_at DESC`) does not return its rows sorted by subject
then prop type then bookmaker then outcome label — on a store whose
"Bob" row was scraped after its "Aaron" row, the query returns Bob's
row first. -/
theorem query_order_counterexample :
    getPlayerPropsDb c6Store none (some "o") 100 = [c6RowBob, c6RowAaron]
    ∧ ¬ detailLe c6RowBob c6RowAaron
    ∧ ¬ List.Sorted detailLe (getPlayerPropsDb c6Store none (some "o") 100) := by
  refine ⟨by decide, by decide, ?_⟩
  intro hsort
  have heq : getPlayerPropsDb c6Store none (some "o") 100 = [c6RowBob, c6RowAaron] := by
    decide
  rw [heq] at hsort
  have h := (List.pairwise_cons.mp hsort).1 c6RowAaron (List.mem_cons_self _ _)
  exact (by decide : ¬ detailLe c6RowBob c6RowAaron) h

/-- C6 (amended): only the by-event game-detail query returns its rows
sorted by subject, then prop type, then bookmaker title, then outcome
label; the by-subject query and the recency-window query return their
rows ordered by scrape timestamp, newest first (the by-subject query
truncated to its row limit). -/
theorem query_order_amended (s : Store) (eid : String) (spk pn : Option String)
    (lim : ℕ) (cutoff : String) :
    List.Sorted detailLe (gameDetailProps s eid)
    ∧ List.Sorted scrapedDescLe (getPlayerPropsDb s spk pn lim)
    ∧ List.Sorted scrapedDescLe (getRecentProps s cutoff) := by
  refine ⟨List.sorted_insertionSort detailLe _, ?_,
    List.sorted_insertionSort scrapedDescLe _⟩
  exact List.Pairwise.sublist (List.take_sublist lim _)
    (List.sorted_insertionSort scrapedDescLe _)

/-- C9: a query whose filter matches no stored row returns an explicit
empty result — the per-player endpoint answers with its not-found
value, the by-subject store query with the empty list — and, being
total functions of the store, they raise nothing. -/
theorem empty_result_queries (s : Store) (eid pname : String) (spk : Option String)
    (nm : String) (lim : ℕ) :
    ((∀ r ∈ s, ¬(r.event_id = eid ∧ r.player_name = pname)) →
      getPlayerPropsApi s eid pname = ApiResult.notFound)
    ∧ ((∀ r ∈ s, nameCond (some nm) r = false) →
      getPlayerPropsDb s spk (some nm) lim = []) := by
  constructor
  · intro h
    have hfil : List.filter
        (fun r => decide (r.event_id = eid) && decide (r.player_name = pname)) s = [] := by
      refine List.filter_eq_nil_iff.mpr fun r hr => ?_
      simp only [Bool.and_eq_true, decide_eq_true_eq]
      exact fun hcon => h r hr hcon
    simp [getPlayerPropsApi, hfil]
  · intro h
    have hfil : List.filter (fun r => sportCond spk r && nameCond (some nm) r) s = [] := by
      refine List.filter_eq_nil_iff.mpr fun r hr => ?_
      simp [h r hr]
    simp [getPlayerPropsDb, hfil]

/-- Witness for C9 at a concrete store holding no row for the queried
event/player and none matching the name filter. -/
theorem empty_result_queries_witness :
    getPlayerPropsApi nzStore "zz" "Nobody" = ApiResult.notFound
    ∧ getPlayerPropsDb nzStore none (some "zzz") 5 = [] := by
  have h := empty_result_queries nzStore "zz" "Nobody" none "zzz" 5
  exact ⟨h.1 (by decide), h.2 (by decide)⟩

/-- C10 is refuted as stated: because of the query's `LIMIT`, a stored
row whose player name contains the argument can still be missing from
the result — here the older of two "Smith" rows is dropped when the
limit is 1. -/
theorem substring_match_counterexample :
    c10Old ∈ c10Store
    ∧ c10Old.player_name.data = "A. ".data ++ ("Smith".data ++ [])
    ∧ c10Old ∉ getPlayerPropsDb c10Store none (some "Smith") 1 :=
  ⟨by decide, by decide, by decide⟩

/-- C10 (amended): the by-subject query matches by SQLite `LIKE` with
wildcards on both sides, not exact equality — any stored row whose
player name contains the argument anywhere satisfies the match
predicate — and every such row is returned provided it falls within
the query's row limit (taking the limit at least the store size
returns them all). -/
theorem substring_match_amended (s : Store) (nm : String) (r : DbRow)
    (pre suf : List Char) (hr : r ∈ s)
    (hocc : r.player_name.data = pre ++ (nm.data ++ suf)) :
    nameCond (some nm) r = true ∧ r ∈ getPlayerPropsDb s none (some nm) s.length := by
  have hcond : nameCond (some nm) r = true := by
    show (if nm = "" then true else sqlLike r.player_name ("%" ++ nm ++ "%")) = true
    by_cases he : nm = ""
    · rw [if_pos he]
    · rw [if_neg he, sqlLike]
      have hpat : ("%" ++ nm ++ "%").data = '%' :: (nm.data ++ ['%']) := by
        rw [String.data_append, String.data_append]
        rfl
      rw [hpat, hocc]
      exact likeChars_pct (nm.data ++ ['%']) (pre ++ (nm.data ++ suf)) (nm.data ++ suf)
        (List.suffix_append pre (nm.data ++ suf)) (likeChars_self_pct nm.data suf)
  refine ⟨hcond, ?_⟩
  rw [getPlayerPropsDb]
  have hmem : r ∈ List.filter (fun q => sportCond none q && nameCond (some nm) q) s :=
    List.mem_filter.mpr ⟨hr, by simp [sportCond, hcond]⟩
  have hperm := List.perm_insertionSort scrapedDescLe
    (List.filter (fun q => sportCond none q && nameCond (some nm) q) s)
  have hlen : (List.insertionSort scrapedDescLe
      (List.filter (fun q => sportCond none q && nameCond (some nm) q) s)).length ≤
      s.length := by
    rw [hperm.length_eq]
    exact List.length_filter_le _ s
  rw [List.take_of_length_le hlen]
  exact hperm.mem_iff.mpr hmem

/-- Witness for C10 (amended) at the concrete store: the "A. Smith" row
matches the "Smith" query and is returned when the limit covers the
store. -/
theorem substring_match_amended_witness :
    nameCond (some "Smith") c10Old = true
    ∧ c10Old ∈ getPlayerPropsDb c10Store none (some "Smith") c10Store.length :=
  substring_match_amended c10Store "Smith" c10Old "A. ".data [] (by decide) (by decide)
